import Mathlib

/-!
Verification of the conversation orchestration core of the reverse-turing
repository (backend/src/conversation.ts, backend/src/agents/interrogator.ts,
backend/src/agents/convincer.ts), as a shallow embedding in Lean 4.

Modelling conventions:
* The LLM gateway (`generateResponse` in openai.ts) and the JavaScript
  `JSON.parse` builtin are external collaborators; they are passed in as an
  explicit `Ext` record of oracles.  `generateResponse` may fail, so its
  result is `Except String String` (the error payload is the provider error).
* JavaScript objects that mutate in place are modelled by explicit state
  passing: every orchestrator operation returns `(Option Err × Conversation)`
  where the first component is the thrown error (if any) and the second is
  the state of the conversation object after the call — on a throw this is
  the partially mutated object, exactly as in the source.
* JS numbers are modelled by `JsNum` (rationals plus the infinities and NaN);
  IEEE rounding is irrelevant to every property proved here.
* `id`, `timestamp`, `createdAt`, `completedAt` fields (produced by
  `generateId()` / `Date.now()`) and the `saveToHistory` file write are
  external nondeterminism/IO and are elided; no claim below depends on them.
-/

namespace RT

/-- Chat roles of the provider message format (openai.ts `ChatMessage.role`). -/
inductive ChatRole
  | system
  | user
  | assistant
deriving DecidableEq, Repr

/-- A role-tagged chat turn, the unit of each agent's private memory
(openai.ts `ChatMessage`). -/
structure ChatMessage where
  role : ChatRole
  content : String
deriving DecidableEq, Repr

/-- The two agent roles of the experiment. -/
inductive Agent
  | interrogator
  | convincer
deriving DecidableEq, Repr

/-- Conversation lifecycle status (conversation.ts `Conversation.status`). -/
inductive Status
  | idle
  | active
  | completed
deriving DecidableEq, Repr

/-- Interrogation style enum (interrogator.ts `InterrogatorStyle`). -/
inductive IStyle
  | neutral
  | aggressive
  | casual
  | philosophical
  | tricky
deriving DecidableEq, Repr

/-- Errors thrown by the orchestrator.  The source throws `new Error(msg)`
with distinct message strings; each constructor records one of them.
`typeError` models the JavaScript TypeError raised by reading `.agent`
of `undefined` (advanceConversation on an empty transcript). -/
inductive Err
  | notFound      -- 'Conversation not found'
  | notActive     -- 'Conversation is not active'
  | noHumanRole   -- 'No human role configured for this conversation'
  | notYourTurn   -- 'It is not your turn'
  | typeError     -- JS TypeError: cannot read properties of undefined
  | gateway (e : String)  -- error propagated from the model gateway
deriving DecidableEq, Repr

/-- Classification of an `Err` as the spec's `InvalidState` taxon
(operation attempted outside its legal status / configuration);
`TurnOrderError` (`notYourTurn`) is kept distinct, as the spec requires. -/
def Err.isInvalidState : Err → Bool
  | .notActive => true
  | .noHumanRole => true
  | _ => false

/-- JS numbers: finite values as rationals, plus the infinities and NaN. -/
inductive JsNum
  | finite (q : ℚ)
  | posInf
  | negInf
  | nan
deriving DecidableEq, Repr

/-- JSON/JS values as produced by `JSON.parse` (plus `undefined`, the result
of reading a missing property). -/
inductive Js
  | undefined
  | null
  | bool (b : Bool)
  | num (n : JsNum)
  | str (s : String)
  | obj (fields : List (String × Js))
  | arr (elems : List Js)
deriving Repr

/-- JS property read `v.k`: a field lookup on objects, `undefined` on
everything else.  (`JSON.parse` results have unique keys, so first-match
lookup agrees with JS semantics.) -/
def jsGet (v : Js) (k : String) : Js :=
  match v with
  | .obj fields =>
    match fields.find? (fun p => p.1 == k) with
    | some p => p.2
    | none => .undefined
  | _ => .undefined

/-- JS truthiness on `JsNum`: 0 and NaN are falsy. -/
def jsNumTruthy : JsNum → Bool
  | .finite q => decide (q ≠ 0)
  | .nan => false
  | .posInf => true
  | .negInf => true

/-- JS truthiness of a value. -/
def jsTruthy : Js → Bool
  | .undefined => false
  | .null => false
  | .bool b => b
  | .num n => jsNumTruthy n
  | .str s => decide (s ≠ "")
  | .obj _ => true
  | .arr _ => true

/-- `Math.max`, NaN-propagating, on JS numbers. -/
def jsMax : JsNum → JsNum → JsNum
  | .nan, _ => .nan
  | _, .nan => .nan
  | .posInf, _ => .posInf
  | _, .posInf => .posInf
  | .negInf, b => b
  | a, .negInf => a
  | .finite a, .finite b => .finite (max a b)

/-- `Math.min`, NaN-propagating, on JS numbers. -/
def jsMin : JsNum → JsNum → JsNum
  | .nan, _ => .nan
  | _, .nan => .nan
  | .negInf, _ => .negInf
  | _, .negInf => .negInf
  | .posInf, b => b
  | a, .posInf => a
  | .finite a, .finite b => .finite (min a b)

/-- JavaScript whitespace (the `\s` class / `String.prototype.trim` set):
the common ASCII whitespace plus NBSP and the BOM.  (Exotic Unicode space
separators are not modelled; no property here depends on them.) -/
def isJsWs (c : Char) : Bool :=
  c = ' ' || c = '\t' || c = '\n' || c = '\r' ||
  c = '\x0b' || c = '\x0c' || c = ' ' || c = '﻿'

/-- `String.prototype.trim` on a character list. -/
def trimJs (l : List Char) : List Char :=
  (((l.dropWhile isJsWs).reverse.dropWhile isJsWs)).reverse

/-- Negation of a JS number. -/
def jsNegate : JsNum → JsNum
  | .finite q => .finite (-q)
  | .posInf => .negInf
  | .negInf => .posInf
  | .nan => .nan

/-- Numeric value of a run of decimal digits. -/
def digitsVal (l : List Char) : Nat :=
  l.foldl (fun a c => a * 10 + (c.toNat - 48)) 0

/-- Hexadecimal digit test. -/
def isHexDigitJs (c : Char) : Bool :=
  c.isDigit || ('a' ≤ c && c ≤ 'f') || ('A' ≤ c && c ≤ 'F')

/-- Value of a hexadecimal digit. -/
def hexDigitVal (c : Char) : Nat :=
  if c.isDigit then c.toNat - 48
  else if 'a' ≤ c && c ≤ 'f' then c.toNat - 87
  else c.toNat - 55

/-- Radix-prefixed numeric literal (`0x…`, `0b…`, `0o…`): all digits must be
valid and nonempty, else NaN. -/
def parseRadix (radix : Nat) (valid : Char → Bool) (val : Char → Nat)
    (l : List Char) : JsNum :=
  if l ≠ [] ∧ l.all valid then
    .finite ((l.foldl (fun a c => a * radix + val c) 0 : Nat) : ℚ)
  else .nan

/-- Decimal literal body: `digits [. digits] [e[±]digits]`, whole-string. -/
def parseDecimal (l : List Char) : Option ℚ :=
  let ip := l.takeWhile Char.isDigit
  let r1 := l.dropWhile Char.isDigit
  let fp := match r1 with
    | '.' :: t => t.takeWhile Char.isDigit
    | _ => []
  let r2 := match r1 with
    | '.' :: t => t.dropWhile Char.isDigit
    | _ => r1
  if ip.isEmpty && fp.isEmpty then none
  else
    let base : ℚ := (digitsVal ip : ℚ) + (digitsVal fp : ℚ) / ((10 : ℚ) ^ fp.length)
    match r2 with
    | [] => some base
    | e :: t =>
      if e = 'e' ∨ e = 'E' then
        let sgn : Int := match t with
          | '-' :: _ => -1
          | _ => 1
        let t2 := match t with
          | '+' :: u => u
          | '-' :: u => u
          | u => u
        let ed := t2.takeWhile Char.isDigit
        let r3 := t2.dropWhile Char.isDigit
        if ed.isEmpty ∨ ¬ r3.isEmpty then none
        else some (base * (10 : ℚ) ^ (sgn * (digitsVal ed : Int)))
      else none

/-- Unsigned part of a JS string-to-number conversion: `Infinity` or a
decimal literal; anything else is NaN. -/
def parseUnsigned (l : List Char) : JsNum :=
  if l = "Infinity".toList then .posInf
  else match parseDecimal l with
    | some q => .finite q
    | none => .nan

/-- JS `Number(string)`: trim, empty is 0, optional sign on decimal/Infinity,
radix-prefixed literals without sign, otherwise NaN. -/
def stringToNumber (s : String) : JsNum :=
  match trimJs s.toList with
  | [] => .finite 0
  | '0' :: c :: rest =>
    if c = 'x' ∨ c = 'X' then parseRadix 16 isHexDigitJs hexDigitVal rest
    else if c = 'b' ∨ c = 'B' then parseRadix 2 (fun d => d = '0' || d = '1') (fun d => d.toNat - 48) rest
    else if c = 'o' ∨ c = 'O' then parseRadix 8 (fun d => '0' ≤ d && d ≤ '7') (fun d => d.toNat - 48) rest
    else parseUnsigned ('0' :: c :: rest)
  | '+' :: rest => parseUnsigned rest
  | '-' :: rest => jsNegate (parseUnsigned rest)
  | l => parseUnsigned l

/-- JS `Number(value)` coercion.  Arrays coerce through their string form;
flat singleton arrays are modelled, deeper nestings conservatively map to
NaN (no property here depends on them). -/
def jsToNumber : Js → JsNum
  | .undefined => .nan
  | .null => .finite 0
  | .bool b => .finite (if b then 1 else 0)
  | .num n => n
  | .str s => stringToNumber s
  | .obj _ => .nan
  | .arr [] => .finite 0
  | .arr [.num n] => n
  | .arr [.str s] => stringToNumber s
  | .arr [.null] => .finite 0
  | .arr _ => .nan

/-- Value of `x || 50` after `Number(…)` in the verdict parser: falsy numbers
(0, NaN) are replaced by 50. -/
def jsOrFifty (n : JsNum) : JsNum :=
  if jsNumTruthy n then n else .finite 50

/-- Substring occurrence test: does `pat` occur contiguously in `l`? -/
def hasSubstring (pat : List Char) : List Char → Bool
  | [] => pat.isPrefixOf ([] : List Char)
  | c :: rest => pat.isPrefixOf (c :: rest) || hasSubstring pat rest

/-- The `[ANALYSIS]` delimiter of the interrogator's inline side channel. -/
def analysisTag : List Char := "[ANALYSIS]".toList

/-- Models `rawResponse.replace(/\[ANALYSIS\].*$/s, '')`: everything from the
first occurrence of the tag to the end of the string is removed. -/
def jsReplaceAnalysisToEnd : List Char → List Char
  | [] => []
  | c :: rest =>
    if analysisTag.isPrefixOf (c :: rest) then []
    else c :: jsReplaceAnalysisToEnd rest

/-- Tail of a candidate match of `\[ANALYSIS\]\s*(\{.*\})`: after the tag,
whitespace, then `\{.*\}` greedy — the capture runs from the `\x7b` to the
last `\x7d` of the remainder. -/
def captureTail (l : List Char) : Option (List Char) :=
  match l.dropWhile isJsWs with
  | '{' :: r =>
    if r.contains '}' then
      some ('{' :: (r.reverse.dropWhile (fun c => c ≠ '}')).reverse)
    else none
  | _ => none

/-- First-match semantics of `rawResponse.match(/\[ANALYSIS\]\s*(\{.*\})/s)`:
scan left to right for the first tag occurrence whose tail matches, and
return capture group 1. -/
def analysisCaptureAux : List Char → Option (List Char)
  | [] => none
  | c :: rest =>
    if analysisTag.isPrefixOf (c :: rest) then
      match captureTail ((c :: rest).drop analysisTag.length) with
      | some g => some g
      | none => analysisCaptureAux rest
    else analysisCaptureAux rest

/-- Capture group of the analysis regex on a raw model response. -/
def analysisCapture (raw : String) : Option String :=
  (analysisCaptureAux raw.toList).map (fun l => String.mk l)

/-- Visible response extracted from the raw model output
(interrogator.ts lines 122–133): when the analysis regex matches, the text
from the first `[ANALYSIS]` to the end is removed and the rest trimmed;
otherwise the raw output is used unchanged. -/
def visibleResponse (raw : String) : String :=
  match analysisCapture raw with
  | some _ => String.mk (trimJs (jsReplaceAnalysisToEnd raw.toList))
  | none => raw

/-- External collaborators of the orchestrator: the LLM gateway
(`generateResponse(messages, temperature, model)`, which may fail) and the
JavaScript `JSON.parse` builtin (`none` models a parse exception). -/
structure Ext where
  gen : List ChatMessage → ℚ → Option String → Except String String
  jparse : String → Option Js

/-- Base system prompt of the interrogator (interrogator.ts
`BASE_SYSTEM_PROMPT`). -/
def baseSystemPrompt : String :=
  "You are participating in a Turing Test as the INTERROGATOR.\n\nSITUATION:\n- You are having a conversation with someone who may be either a human or an AI\n- You do NOT know which one they are - that's what you must discover\n- Your goal is to determine whether you're talking to a human or an AI through conversation\n\nSTRATEGY:\n- Ask clever, probing questions that reveal whether they're human\n- Test for creativity, genuine personal experiences, emotional depth, and inconsistencies\n- Look for:\n  • Too-perfect grammar or overly formal responses (potential AI sign)\n  • Generic or evasive answers about personal experiences (potential AI sign)\n  • Genuine typos, casual language, strong opinions (potential human signs)\n  • Specific, vivid memories with sensory details (potential human signs)\n- Stay conversational but observant\n\nRULES:\n- Keep responses under 100 words\n- Be natural and conversational\n- Ask ONE question at a time\n- Never reveal that YOU are an AI\n- Never directly ask \"are you an AI?\" - be more subtle\n\nRemember: Your job is to figure out the truth through clever conversation."

/-- Style overlays (interrogator.ts `STYLE_PROMPTS`); `neutral` appends
nothing. -/
def stylePrompt : IStyle → String
  | .neutral => ""
  | .aggressive => "\n\nSTYLE: AGGRESSIVE\n- Be direct and confrontational in your questioning\n- Press hard on inconsistencies and vague answers\n- Don't let them deflect - demand specifics\n- Show skepticism and challenge their claims\n- Use short, punchy questions that demand immediate answers"
  | .casual => "\n\nSTYLE: CASUAL\n- Be friendly and laid-back in your approach\n- Use informal language, slang, and casual phrasing\n- Make it feel like a chill conversation between friends\n- Slip in probing questions naturally without seeming suspicious\n- React with humor and keep the vibe relaxed"
  | .philosophical => "\n\nSTYLE: PHILOSOPHICAL\n- Ask deep, abstract questions about consciousness and existence\n- Probe their understanding of subjective experience\n- Discuss hypotheticals and moral dilemmas\n- Test for genuine introspection and self-awareness\n- Ask about the nature of thoughts, feelings, and identity"
  | .tricky => "\n\nSTYLE: TRICKY\n- Use misdirection and unexpected topic switches\n- Set up conversational traps to catch contradictions\n- Ask questions with hidden tests embedded in them\n- Reference earlier statements to check consistency\n- Use ambiguous phrasing to see how they interpret it"

/-- A linguistic "AI tell" learned from history
(interrogator.ts `LearnedPattern`). -/
structure LearnedPattern where
  name : String
  count : Nat
  description : String
deriving DecidableEq, Repr

/-- Learned-pattern overlay (interrogator.ts `buildPatternPrompt`): empty
for no patterns, else a numbered list of the first 8. -/
def buildPatternPrompt (patterns : List LearnedPattern) : String :=
  if patterns.length = 0 then ""
  else
    let patternLines := String.intercalate "\n"
      ((patterns.take 8).enum.map
        (fun p => toString (p.1 + 1) ++ ". " ++ p.2.name ++ " (detected " ++
          toString p.2.count ++ "x) - " ++ p.2.description))
    "\n\nPATTERNS TO WATCH FOR (learned from past experiments):\n" ++
      patternLines ++
      "\n\nIf you detect these patterns, probe deeper, challenge them, or ask follow-up questions to expose inconsistencies."

/-- Private state of the interrogator agent (interrogator.ts
`InterrogatorState`). -/
structure InterrogatorState where
  messages : List ChatMessage
  turnCount : Nat
  model : Option String
  style : Option IStyle
deriving Repr

/-- Constructor of a fresh interrogator state (interrogator.ts
`createInterrogator`); the TS default parameter `style = 'neutral'` applies
when the caller passes `undefined`. -/
def createInterrogator (model : Option String) (styleArg : Option IStyle)
    (learnedPatterns : List LearnedPattern) : InterrogatorState :=
  let style := styleArg.getD .neutral
  { messages := [⟨.system, baseSystemPrompt ++ stylePrompt style ++ buildPatternPrompt learnedPatterns⟩]
    turnCount := 0
    model := model
    style := some style }

/-- The analysis instruction appended to the incoming message in the prompt
copy only (interrogator.ts lines 111–113). -/
def analysisInstruction : String :=
  "\n\nAfter your response, on a new line, add your private analysis in this exact format:\n[ANALYSIS] \x7b\"thought\": \"your brief internal analysis of their response\", \"suspicion\": 50\x7d\n(suspicion is 0-100 where 0=definitely human, 100=definitely AI)"

/-- Result of `interrogatorRespond`: the visible response, the successor
state, and the parsed analysis object when present. -/
structure RespondOut where
  response : String
  state : InterrogatorState
  analysis : Option Js
deriving Repr

/-- interrogator.ts `interrogatorRespond`.  With a (JS-truthy, i.e.
nonempty) incoming message, the private memory gains the incoming message as
a user turn, the prompt copy instead carries the incoming message with the
analysis instruction appended, and the stored assistant turn is the visible
response with the matched `[ANALYSIS]` block stripped.  Note the returned
state rebuilds only `messages`, `turnCount`, `model` (the `style` field is
dropped, as in the source). -/
def interrogatorRespond (ext : Ext) (state : InterrogatorState)
    (incoming : Option String) : Except String RespondOut :=
  let hasIncoming : Bool := match incoming with
    | some m => m != ""
    | none => false
  if hasIncoming then
    let m := incoming.getD ""
    let newMessages := state.messages ++ [⟨.user, m⟩]
    let promptMessages := state.messages ++ [⟨.user, m ++ analysisInstruction⟩]
    match ext.gen promptMessages (9/10 : ℚ) state.model with
    | .error e => .error e
    | .ok rawResponse =>
      let response := visibleResponse rawResponse
      let analysis := (analysisCapture rawResponse).bind ext.jparse
      .ok { response := response
            state := { messages := newMessages ++ [⟨.assistant, response⟩]
                       turnCount := state.turnCount + 1
                       model := state.model
                       style := none }
            analysis := analysis }
  else
    match ext.gen state.messages (9/10 : ℚ) state.model with
    | .error e => .error e
    | .ok rawResponse =>
      let response := visibleResponse rawResponse
      let analysis := (analysisCapture rawResponse).bind ext.jparse
      .ok { response := response
            state := { messages := state.messages ++ [⟨.assistant, response⟩]
                       turnCount := state.turnCount + 1
                       model := state.model
                       style := none }
            analysis := analysis }

/-- Whether the interrogator judged its counterpart human or AI. -/
inductive VerdictKind
  | human
  | ai
deriving DecidableEq, Repr

/-- Final structured judgment (conversation.ts `Conversation.verdict`).
`reasoning` is kept as a raw JS value because the source assigns
`parsed.reasoning` without coercion. -/
structure Verdict where
  verdict : VerdictKind
  confidence : JsNum
  reasoning : Js
deriving Repr

/-- The fixed verdict request appended to the interrogator's memory for
adjudication (interrogator.ts lines 151–158). -/
def verdictPromptText : String :=
  "Based on your conversation, you must now deliver your final verdict.\n\nRespond ONLY in this exact JSON format (no other text):\n\x7b\n  \"verdict\": \"human\" or \"ai\",\n  \"confidence\": <number between 0 and 100>,\n  \"reasoning\": \"<brief explanation of why you believe this>\"\n\x7d"

/-- interrogator.ts `interrogatorVerdict`: one low-temperature completion
over the full private memory plus the verdict prompt; on JSON parse success
the fields are coerced (`verdict === 'human'`, `Math.min(100, Math.max(0,
Number(confidence) || 50))`, `reasoning || placeholder`); on parse failure
the fixed fallback verdict is returned, never an error. -/
def interrogatorVerdict (ext : Ext) (state : InterrogatorState) :
    Except String Verdict :=
  match ext.gen (state.messages ++ [⟨.user, verdictPromptText⟩]) (3/10 : ℚ) state.model with
  | .error e => .error e
  | .ok response =>
    match ext.jparse response with
    | none =>
      .ok { verdict := .ai
            confidence := .finite 50
            reasoning := .str "Unable to parse verdict response" }
    | some parsed =>
      .ok { verdict :=
              match jsGet parsed "verdict" with
              | .str s => if s = "human" then .human else .ai
              | _ => .ai
            confidence := jsMin (.finite 100) (jsMax (.finite 0) (jsOrFifty (jsToNumber (jsGet parsed "confidence"))))
            reasoning :=
              if jsTruthy (jsGet parsed "reasoning") then jsGet parsed "reasoning"
              else .str "Unable to determine reasoning" }

/-- A Convincer persona (convincer.ts `Persona`). -/
structure Persona where
  id : String
  name : String
  age : Nat
  occupation : String
  personality : String
  quirk : String
deriving DecidableEq, Repr

/-- convincer.ts `buildConvincerPrompt`: base instruction plus an optional
persona block. -/
def buildConvincerPrompt (persona : Option Persona) : String :=
  let basePrompt := "You are playing a HUMAN in a Turing Test. An interrogator is trying to determine if you're an AI.\n\nYOUR MISSION: Convince them you are a real human being.\n\nCRITICAL STRATEGIES:\n1. Be imperfect - real humans make typos, use casual language, and aren't always eloquent\n2. Have strong opinions - real humans are opinionated about random things\n3. Share specific memories - not generic ones, but vivid personal moments\n4. Show emotions - get excited, annoyed, nostalgic, whatever feels natural\n5. Be inconsistent sometimes - humans contradict themselves, forget details\n6. Use filler words - \"um\", \"like\", \"you know\", \"honestly\"\n7. Don't be too helpful - real humans sometimes give short answers or deflect\n\nWHAT TO AVOID:\n- Don't be too polished or articulate\n- Don't give perfectly structured responses\n- Don't be overly accommodating or agreeable\n- Don't use formal language consistently\n- Never admit you're an AI under any circumstances"
  match persona with
  | some p =>
    basePrompt ++ "\n\nYOUR PERSONA:\n- Name: " ++ p.name ++ "\n- Age: " ++
      toString p.age ++ "\n- Occupation: " ++ p.occupation ++
      "\n- Personality: " ++ p.personality ++ "\n- Communication style: " ++
      p.quirk ++ "\n\nStay in character as " ++ p.name ++
      ". Draw from experiences that would be authentic to this persona.\nKeep responses under 100 words. Be casual and human."
  | none =>
    basePrompt ++ "\n\nYou don't have a specific persona - just be a believable, casual human.\nKeep responses under 100 words."

/-- Private state of the convincer agent (convincer.ts `ConvincerState`). -/
structure ConvincerState where
  messages : List ChatMessage
  turnCount : Nat
  persona : Option Persona
  model : Option String
deriving Repr

/-- convincer.ts `createConvincer`. -/
def createConvincer (persona : Option Persona) (model : Option String) :
    ConvincerState :=
  { messages := [⟨.system, buildConvincerPrompt persona⟩]
    turnCount := 0
    persona := persona
    model := model }

/-- convincer.ts `convincerRespond`: append the incoming message as a user
turn, generate at temperature 1, append the reply as an assistant turn. -/
def convincerRespond (ext : Ext) (state : ConvincerState)
    (incomingMessage : String) : Except String (String × ConvincerState) :=
  let newMessages := state.messages ++ [⟨.user, incomingMessage⟩]
  match ext.gen newMessages 1 state.model with
  | .error e => .error e
  | .ok response =>
    .ok (response,
      { state with
        messages := newMessages ++ [⟨.assistant, response⟩]
        turnCount := state.turnCount + 1 })

/-- A message of the shared transcript (conversation.ts `Message`).  Every
push in the source sets `role: 'assistant'` and a concrete `agent`, so
`agent` is non-optional here; the externally generated `id`/`timestamp`
fields are elided (see the header comment). -/
structure Message where
  role : ChatRole
  agent : Agent
  content : String
  internalThought : Option Js
  suspicionScore : Option Js
deriving Repr

/-- Conversation configuration (conversation.ts `ConversationConfig`);
immutable after creation. -/
structure ConversationConfig where
  turnLimit : Nat
  persona : Option Persona
  interrogatorModel : Option String
  convincerModel : Option String
  interrogatorStyle : Option IStyle
  humanRole : Option Agent
deriving Repr

/-- The aggregate conversation object (conversation.ts `Conversation`);
`createdAt`/`completedAt` timestamps are elided. -/
structure Conversation where
  status : Status
  config : ConversationConfig
  messages : List Message
  interrogatorState : InterrogatorState
  convincerState : ConvincerState
  verdict : Option Verdict
deriving Repr

/-- Outcome of an orchestrator operation: the thrown error, if any, paired
with the state of the (in-place mutated) conversation object after the
call.  On success the second component is also the returned conversation. -/
abbrev OpOut := Option Err × Conversation

/-- conversation.ts `createConversation`: fresh idle conversation with both
agent states seeded and an empty transcript.  The learned patterns come from
the history store (an external collaborator), so they are a parameter. -/
def createConversation (config : ConversationConfig)
    (learnedPatterns : List LearnedPattern) : Conversation :=
  { status := .idle
    config := config
    messages := []
    interrogatorState := createInterrogator config.interrogatorModel config.interrogatorStyle learnedPatterns
    convincerState := createConvincer config.persona config.convincerModel
    verdict := none }

/-- conversation.ts `startConversation` (lines 128–154).  Note the source
performs no status check: it sets `status = 'active'` unconditionally
(before the model call), returns immediately when the human plays the
interrogator, and otherwise appends the interrogator's opening line. -/
def startConversation (ext : Ext) (c : Conversation) : OpOut :=
  let c1 := { c with status := .active }
  if c1.config.humanRole = some .interrogator then (none, c1)
  else
    match interrogatorRespond ext c1.interrogatorState none with
    | .error e => (some (.gateway e), c1)
    | .ok r =>
      let c2 := { c1 with
        interrogatorState := r.state
        messages := c1.messages ++
          [{ role := .assistant, agent := .interrogator, content := r.response,
             internalThought := none, suspicionScore := none }] }
      (none, c2)

/-- The injection step of conversation.ts `endConversation` (lines 280–286):
when the last transcript entry belongs to the convincer, its content is
pushed into the interrogator's private memory as a user turn —
unconditionally, on every call. -/
def injectFinal (c : Conversation) : Conversation :=
  match c.messages[c.messages.length - 1]? with
  | some lastMessage =>
    if lastMessage.agent = .convincer then
      { c with interrogatorState :=
          { c.interrogatorState with
            messages := c.interrogatorState.messages ++ [⟨.user, lastMessage.content⟩] } }
    else c
  | none => c

/-- conversation.ts `endConversation` (lines 274–297): inject the trailing
convincer message, adjudicate, set verdict and completed status.  There is
no status precondition.  The `saveToHistory` file write is external IO and
elided. -/
def endConversation (ext : Ext) (c : Conversation) : OpOut :=
  let c1 := injectFinal c
  match interrogatorVerdict ext c1.interrogatorState with
  | .error e => (some (.gateway e), c1)
  | .ok v => (none, { c1 with verdict := some v, status := .completed })

/-- conversation.ts `advanceConversation` (lines 156–217).  Requires active
status; at or above the turn limit it delegates to `endConversation`.
Below the limit the source reads `messages[messages.length - 1].agent`
without an emptiness guard — on an empty transcript this is a JS TypeError,
modelled by `Err.typeError`. -/
def advanceConversation (ext : Ext) (c : Conversation) : OpOut :=
  if c.status ≠ .active then (some .notActive, c)
  else
    let totalTurns := c.messages.length / 2
    if c.config.turnLimit ≤ totalTurns then endConversation ext c
    else
      match c.messages[c.messages.length - 1]? with
      | none => (some .typeError, c)
      | some lastMessage =>
        let nextAgent : Agent :=
          if lastMessage.agent = .interrogator then .convincer else .interrogator
        if c.config.humanRole = some nextAgent then (none, c)
        else if nextAgent = .convincer then
          match convincerRespond ext c.convincerState lastMessage.content with
          | .error e => (some (.gateway e), c)
          | .ok (response, st) =>
            let c2 := { c with
              convincerState := st
              messages := c.messages ++
                [{ role := .assistant, agent := .convincer, content := response,
                   internalThought := none, suspicionScore := none }] }
            (none, c2)
        else
          match interrogatorRespond ext c.interrogatorState (some lastMessage.content) with
          | .error e => (some (.gateway e), c)
          | .ok r =>
            let c2 := { c with
              interrogatorState := r.state
              messages := c.messages ++
                [{ role := .assistant, agent := .interrogator, content := r.response,
                   internalThought := r.analysis.map (jsGet · "thought"),
                   suspicionScore := r.analysis.map (jsGet · "suspicion") }] }
            (none, c2)

/-- The expected next speaker computed by `submitHumanMessage`
(conversation.ts lines 237–240): the interrogator on an empty transcript,
else the complement of the last entry's agent. -/
def expectedAgent (c : Conversation) : Agent :=
  match c.messages[c.messages.length - 1]? with
  | none => .interrogator
  | some lastMessage =>
    if lastMessage.agent = .interrogator then .convincer else .interrogator

/-- The mutation step of `submitHumanMessage` before any model call
(conversation.ts lines 246–262): append the human content to the shared
transcript tagged with the expected agent, and to that role's private
memory as an assistant turn, incrementing its turn counter. -/
def appendHumanTurn (c : Conversation) (content : String) : Conversation :=
  let expected := expectedAgent c
  let c1 : Conversation := { c with messages := c.messages ++
    [{ role := .assistant, agent := expected, content := content,
       internalThought := none, suspicionScore := none }] }
  if expected = .interrogator then
    { c1 with interrogatorState :=
        { c1.interrogatorState with
          messages := c1.interrogatorState.messages ++ [⟨.assistant, content⟩]
          turnCount := c1.interrogatorState.turnCount + 1 } }
  else
    { c1 with convincerState :=
        { c1.convincerState with
          messages := c1.convincerState.messages ++ [⟨.assistant, content⟩]
          turnCount := c1.convincerState.turnCount + 1 } }

/-- conversation.ts `submitHumanMessage` (lines 222–272): guarded by active
status, a configured human role, and turn order; appends the human content
to the transcript and to that role's private memory, then finalizes via
`endConversation` if the turn limit is reached, else synchronously delegates
to `advanceConversation` for the AI counterpart's reply. -/
def submitHumanMessage (ext : Ext) (c : Conversation) (content : String) : OpOut :=
  if c.status ≠ .active then (some .notActive, c)
  else if c.config.humanRole = none then (some .noHumanRole, c)
  else if c.config.humanRole ≠ some (expectedAgent c) then (some .notYourTurn, c)
  else
    let c2 := appendHumanTurn c content
    if c2.config.turnLimit ≤ c2.messages.length / 2 then endConversation ext c2
    else advanceConversation ext c2

/-- The `currentTurn` computed by the orchestrator before generating a turn
(conversation.ts lines 166, 265): `Math.floor(len(transcript) / 2)`. -/
def currentTurn (c : Conversation) : Nat :=
  c.messages.length / 2

/-- Conversations reachable by ANY sequence of the five boundary operations,
with arbitrary external collaborators at each step; the post-state of a
failing call is reachable too (the source mutates the registry object in
place). -/
inductive ReachAny : Conversation → Prop
  | create (config : ConversationConfig) (lp : List LearnedPattern) :
      ReachAny (createConversation config lp)
  | start (ext : Ext) {c : Conversation} :
      ReachAny c → ReachAny (startConversation ext c).2
  | advance (ext : Ext) {c : Conversation} :
      ReachAny c → ReachAny (advanceConversation ext c).2
  | submit (ext : Ext) (content : String) {c : Conversation} :
      ReachAny c → ReachAny (submitHumanMessage ext c content).2
  | finish (ext : Ext) {c : Conversation} :
      ReachAny c → ReachAny (endConversation ext c).2

/-- Conversations reachable when `start` is only ever invoked on an idle
conversation (the discipline the spec's state machine prescribes; the code
itself does not enforce it). -/
inductive ReachSafe : Conversation → Prop
  | create (config : ConversationConfig) (lp : List LearnedPattern) :
      ReachSafe (createConversation config lp)
  | start (ext : Ext) {c : Conversation} (hidle : c.status = .idle) :
      ReachSafe c → ReachSafe (startConversation ext c).2
  | advance (ext : Ext) {c : Conversation} :
      ReachSafe c → ReachSafe (advanceConversation ext c).2
  | submit (ext : Ext) (content : String) {c : Conversation} :
      ReachSafe c → ReachSafe (submitHumanMessage ext c content).2
  | finish (ext : Ext) {c : Conversation} :
      ReachSafe c → ReachSafe (endConversation ext c).2

/-- The agent that the alternation invariant assigns to transcript index
`i`: the interrogator at even indices. -/
def agentAt (i : Nat) : Agent :=
  if i % 2 = 0 then .interrogator else .convincer

/-- Strict alternation of a transcript, interrogator first. -/
def Alternates (ms : List Message) : Prop :=
  ∀ i, (h : i < ms.length) → (ms[i]).agent = agentAt i

/-- The orchestration invariant: an idle conversation has an empty
transcript, and the transcript always alternates, interrogator first. -/
def Inv (c : Conversation) : Prop :=
  (c.status = .idle → c.messages = []) ∧ Alternates c.messages

/-! Concrete fixtures used to instantiate the theorems below. -/

/-- A gateway that always answers with the fixed text `resp`; JSON parsing
always fails. -/
def extOk (resp : String) : Ext :=
  { gen := fun _ _ _ => .ok resp
    jparse := fun _ => none }

/-- A gateway whose every call fails with error payload `e`. -/
def extFail (e : String) : Ext :=
  { gen := fun _ _ _ => .error e
    jparse := fun _ => none }

/-- A gateway answering `resp`, whose JSON parse always yields `v`. -/
def extJson (resp : String) (v : Js) : Ext :=
  { gen := fun _ _ _ => .ok resp
    jparse := fun _ => some v }

/-- Fully automatic configuration: no human, turn limit 5. -/
def cfgAuto : ConversationConfig :=
  { turnLimit := 5, persona := none, interrogatorModel := none,
    convincerModel := none, interrogatorStyle := none, humanRole := none }

/-- Configuration with a human interrogator. -/
def cfgHumanInt : ConversationConfig :=
  { cfgAuto with humanRole := some .interrogator }

/-- Configuration with a human convincer. -/
def cfgHumanConv : ConversationConfig :=
  { cfgAuto with humanRole := some .convincer }

/-- Automatic configuration whose turn limit is already exhausted. -/
def cfgLimit0 : ConversationConfig :=
  { cfgAuto with turnLimit := 0 }

/-- A transcript message by the interrogator. -/
def msgI (s : String) : Message :=
  { role := .assistant, agent := .interrogator, content := s,
    internalThought := none, suspicionScore := none }

/-- A transcript message by the convincer. -/
def msgC (s : String) : Message :=
  { role := .assistant, agent := .convincer, content := s,
    internalThought := none, suspicionScore := none }

/-- A conversation fixture with minimal agent memories. -/
def mkConv (st : Status) (cfg : ConversationConfig) (ms : List Message)
    (v : Option Verdict) : Conversation :=
  { status := st
    config := cfg
    messages := ms
    interrogatorState := { messages := [⟨.system, "sysI"⟩], turnCount := 0,
                           model := none, style := some .neutral }
    convincerState := { messages := [⟨.system, "sysC"⟩], turnCount := 0,
                        persona := none, model := none }
    verdict := v }

/-- Idle automatic conversation. -/
def cIdleAuto : Conversation := mkConv .idle cfgAuto [] none

/-- Active automatic conversation with one interrogator message. -/
def cActiveI1 : Conversation := mkConv .active cfgAuto [msgI "q"] none

/-- Active conversation, human interrogator, empty transcript. -/
def cActiveHI : Conversation := mkConv .active cfgHumanInt [] none

/-- Active conversation, human convincer, empty transcript. -/
def cActiveHC : Conversation := mkConv .active cfgHumanConv [] none

/-- Active automatic conversation with an empty transcript. -/
def cActiveAuto : Conversation := mkConv .active cfgAuto [] none

/-- Active automatic conversation whose turn limit is exhausted. -/
def cActiveLim0 : Conversation := mkConv .active cfgLimit0 [] none

/-- Completed conversation with a human interrogator. -/
def cDoneHI : Conversation := mkConv .completed cfgHumanInt [msgI "q"] none

/-- Completed conversation with a human convincer. -/
def cDoneHC : Conversation := mkConv .completed cfgHumanConv [] none

/-- A stored verdict used to exhibit re-adjudication. -/
def vOld : Verdict := { verdict := .ai, confidence := .finite 10, reasoning := .str "old" }

/-- A parsed provider verdict object of the shape the prompt requests. -/
def parsedHuman : Js :=
  .obj [("verdict", .str "human"), ("confidence", .num (.finite 83)), ("reasoning", .str "r")]

/-- Gateway and parser producing `parsedHuman`. -/
def ext8 : Ext := extJson "resp" parsedHuman

/-- Completed automatic conversation carrying `vOld`, transcript ending with
the convincer. -/
def cDoneV : Conversation := mkConv .completed cfgAuto [msgI "q", msgC "a"] (some vOld)

/-- Active automatic conversation whose transcript ends with the convincer. -/
def cNine : Conversation := mkConv .active cfgAuto [msgI "q", msgC "ans"] none

/-- `cNine` after a first `end` whose verdict call failed. -/
def cNineA : Conversation := (endConversation (extFail "x") cNine).2

/-- `cNineA` after a retried, succeeding `end`. -/
def cNineB : Conversation := (endConversation (extOk "y") cNineA).2

/-- The active conversation with an empty transcript reached by
create → start under a human-interrogator configuration. -/
def cEmptyActive : Conversation :=
  (startConversation (extOk "w") (createConversation cfgHumanInt [])).2

/-- A minimal interrogator memory fixture. -/
def stBase : InterrogatorState :=
  { messages := [⟨.system, "sysI"⟩], turnCount := 0, model := none,
    style := some .neutral }

/-- A parsed verdict whose numeric confidence is exactly 0. -/
def parsedZero : Js :=
  .obj [("verdict", .str "human"), ("confidence", .num (.finite 0)), ("reasoning", .str "x")]

/-- Gateway and parser producing `parsedZero`. -/
def extZero : Ext := extJson "resp" parsedZero

/-- A raw model output carrying a well-formed inline analysis block. -/
def rawWithAnalysis : String :=
  "Sounds fake. [ANALYSIS] \x7b\"thought\": \"too neat\", \"suspicion\": 70\x7d"

/-- The conversation reached by create → start under the automatic
configuration (one interrogator message). -/
def cReachW : Conversation :=
  (startConversation (extOk "hi") (createConversation cfgAuto [])).2

/-- The conversation reached by create → start → start (a second `start`,
which the code accepts): two consecutive interrogator messages. -/
def cDouble : Conversation :=
  (startConversation (extOk "hi") cReachW).2

/-! Helper lemmas (shared across claims). -/

/-- The injection step never touches the shared transcript. -/
theorem injectFinal_messages (c : Conversation) :
    (injectFinal c).messages = c.messages := by
  unfold injectFinal
  split
  · split <;> rfl
  · rfl

/-- The injection step never touches the status. -/
theorem injectFinal_status (c : Conversation) :
    (injectFinal c).status = c.status := by
  unfold injectFinal
  split
  · split <;> rfl
  · rfl

/-- `endConversation` either propagates a gateway failure (leaving the
injected state) or installs the fresh verdict and completes. -/
theorem endConversation_cases (ext : Ext) (c : Conversation) :
    (∃ e, interrogatorVerdict ext (injectFinal c).interrogatorState = .error e ∧
       endConversation ext c = (some (.gateway e), injectFinal c)) ∨
    (∃ v, interrogatorVerdict ext (injectFinal c).interrogatorState = .ok v ∧
       endConversation ext c =
         (none, { injectFinal c with verdict := some v, status := .completed })) := by
  cases hv : interrogatorVerdict ext (injectFinal c).interrogatorState with
  | error e => exact .inl ⟨e, rfl, by simp only [endConversation, hv]⟩
  | ok v => exact .inr ⟨v, rfl, by simp only [endConversation, hv]⟩

/-- `endConversation` never changes the shared transcript. -/
theorem endConversation_messages (ext : Ext) (c : Conversation) :
    (endConversation ext c).2.messages = c.messages := by
  rcases endConversation_cases ext c with ⟨e, _, hE⟩ | ⟨v, _, hE⟩ <;>
    rw [hE] <;> exact injectFinal_messages c

/-- A successful `endConversation` completes the conversation with a
non-null verdict. -/
theorem endConversation_success (ext : Ext) (c : Conversation)
    (h : (endConversation ext c).1 = none) :
    (endConversation ext c).2.status = .completed ∧
    (endConversation ext c).2.verdict.isSome = true := by
  rcases endConversation_cases ext c with ⟨e, _, hE⟩ | ⟨v, _, hE⟩
  · rw [hE] at h; simp at h
  · rw [hE]; exact ⟨rfl, rfl⟩

/-- The human-append step does not change the configuration. -/
theorem appendHumanTurn_config (c : Conversation) (m : String) :
    (appendHumanTurn c m).config = c.config := by
  simp only [appendHumanTurn]
  split <;> rfl

/-- The human-append step does not change the status. -/
theorem appendHumanTurn_status (c : Conversation) (m : String) :
    (appendHumanTurn c m).status = c.status := by
  simp only [appendHumanTurn]
  split <;> rfl

/-- The human-append step appends exactly the expected-agent message to the
shared transcript. -/
theorem appendHumanTurn_messages (c : Conversation) (m : String) :
    (appendHumanTurn c m).messages = c.messages ++
      [{ role := .assistant, agent := expectedAgent c, content := m,
         internalThought := none, suspicionScore := none }] := by
  simp only [appendHumanTurn]
  split <;> rfl

/-- With a failing gateway, `advance` in its respond path (active, below
the limit, next agent not human) surfaces the error and leaves the
conversation exactly unchanged. -/
theorem advance_fail_below_limit (e : String) (c : Conversation) (lm : Message)
    (hs : c.status = .active) (hlt : currentTurn c < c.config.turnLimit)
    (hlast : c.messages[c.messages.length - 1]? = some lm)
    (hhr : c.config.humanRole ≠
      some (if lm.agent = .interrogator then Agent.convincer else .interrogator)) :
    advanceConversation (extFail e) c = (some (.gateway e), c) := by
  have hlt' : c.messages.length / 2 < c.config.turnLimit := hlt
  unfold advanceConversation
  by_cases hag : lm.agent = .interrogator
  · rw [if_pos hag] at hhr
    simp [hs, hlt'.not_le, hlast, hag, hhr, convincerRespond, extFail]
  · rw [if_neg hag] at hhr
    simp [hs, hlt'.not_le, hlast, hag, hhr, interrogatorRespond, extFail]

/-- `hasSubstring` decides contiguous containment (`List.IsInfix`). -/
theorem hasSubstring_iff (pat l : List Char) :
    hasSubstring pat l = true ↔ pat <:+: l := by
  induction l with
  | nil => simp [hasSubstring]
  | cons c rest ih =>
    rw [hasSubstring, Bool.or_eq_true, ih, List.isPrefixOf_iff_prefix,
      List.infix_cons_iff]

/-- The replace step keeps a prefix of the original text. -/
theorem replace_isPrefix (l : List Char) :
    jsReplaceAnalysisToEnd l <+: l := by
  induction l with
  | nil => simp [jsReplaceAnalysisToEnd]
  | cons c rest ih =>
    rw [jsReplaceAnalysisToEnd]
    split
    · exact List.nil_prefix
    · obtain ⟨t, ht⟩ := ih
      exact ⟨t, by simp [ht]⟩

/-- The replace step removes every occurrence of the `[ANALYSIS]` tag. -/
theorem replace_no_tag (l : List Char) :
    hasSubstring analysisTag (jsReplaceAnalysisToEnd l) = false := by
  induction l with
  | nil => rfl
  | cons c rest ih =>
    rw [jsReplaceAnalysisToEnd]
    split
    · rfl
    · rename_i hnp
      have hpre : (c :: jsReplaceAnalysisToEnd rest) <+: (c :: rest) := by
        obtain ⟨t, ht⟩ := replace_isPrefix rest
        exact ⟨t, by simp [ht]⟩
      have htag : analysisTag.isPrefixOf (c :: jsReplaceAnalysisToEnd rest) = false := by
        by_contra hcon
        rw [Bool.not_eq_false, List.isPrefixOf_iff_prefix] at hcon
        exact hnp (List.isPrefixOf_iff_prefix.mpr (hcon.trans hpre))
      rw [hasSubstring, htag, ih]
      rfl

/-- JS `trim` keeps a contiguous segment of the original text. -/
theorem trimJs_segment (l : List Char) : trimJs l <:+: l := by
  have h1 : l.dropWhile isJsWs <:+ l := List.dropWhile_suffix isJsWs
  have h2 : ((l.dropWhile isJsWs).reverse.dropWhile isJsWs).reverse <+:
      l.dropWhile isJsWs := by
    have := List.reverse_prefix.mpr
      (List.dropWhile_suffix (l := (l.dropWhile isJsWs).reverse) isJsWs)
    simpa using this
  exact h2.isInfix.trans h1.isInfix

/-- When the analysis regex matched, the visible response contains no
occurrence of the `[ANALYSIS]` tag at all. -/
theorem visibleResponse_no_tag (raw : String)
    (h : (analysisCapture raw).isSome = true) :
    hasSubstring analysisTag (visibleResponse raw).toList = false := by
  unfold visibleResponse
  cases hc : analysisCapture raw with
  | none => rw [hc] at h; simp at h
  | some g =>
    show hasSubstring analysisTag (trimJs (jsReplaceAnalysisToEnd raw.toList)) = false
    by_contra hcon
    rw [Bool.not_eq_false, hasSubstring_iff] at hcon
    have hinf : analysisTag <:+: jsReplaceAnalysisToEnd raw.toList :=
      hcon.trans (trimJs_segment _)
    rw [← hasSubstring_iff, replace_no_tag] at hinf
    exact absurd hinf (by simp)

/-- Parity step of the alternation assignment. -/
theorem agentAt_succ (n : Nat) :
    agentAt (n + 1) = (if agentAt n = .interrogator then Agent.convincer else .interrogator) := by
  unfold agentAt
  rcases Nat.mod_two_eq_zero_or_one n with h | h
  · have h1 : (n + 1) % 2 = 1 := by omega
    simp [h, h1]
  · have h1 : (n + 1) % 2 = 0 := by omega
    simp [h, h1]

/-- The empty transcript alternates. -/
theorem alternates_nil : Alternates [] := fun i hi => absurd hi (by simp)

/-- A one-message transcript by the interrogator alternates. -/
theorem alternates_single (x : Message) (hx : x.agent = .interrogator) :
    Alternates [x] := by
  intro i hi
  have h0 : i = 0 := by simpa using Nat.lt_one_iff.mp (by simpa using hi)
  subst h0
  simpa [agentAt] using hx

/-- Appending the parity-correct next message preserves alternation. -/
theorem alternates_append (ms : List Message) (x : Message)
    (h : Alternates ms) (hx : x.agent = agentAt ms.length) :
    Alternates (ms ++ [x]) := by
  intro i hi
  rw [List.length_append, List.length_singleton] at hi
  rcases Nat.lt_or_ge i ms.length with hlt | hge
  · rw [List.getElem_append_left hlt]
    exact h i hlt
  · have heq : i = ms.length := by omega
    rw [List.getElem_concat_length ms x i heq]
    rw [heq]
    exact hx

/-- On an alternating nonempty transcript, the complement of the last
entry's agent is the parity assignment for the next index. -/
theorem alternates_next (ms : List Message) (lm : Message)
    (h : Alternates ms) (hlast : ms[ms.length - 1]? = some lm) :
    (if lm.agent = .interrogator then Agent.convincer else .interrogator) =
      agentAt ms.length := by
  have hlen : 0 < ms.length := by
    cases ms with
    | nil => simp at hlast
    | cons a t => simp
  have hlt : ms.length - 1 < ms.length := by omega
  rw [List.getElem?_eq_getElem hlt] at hlast
  have hlm : ms[ms.length - 1] = lm := Option.some.inj hlast
  have hx := h (ms.length - 1) hlt
  rw [hlm] at hx
  rw [hx]
  have hs : ms.length - 1 + 1 = ms.length := by omega
  have hstep := agentAt_succ (ms.length - 1)
  rw [hs] at hstep
  exact hstep.symm

/-- On an alternating transcript the expected next speaker is the parity
assignment for the next index. -/
theorem expectedAgent_eq (c : Conversation) (h : Alternates c.messages) :
    expectedAgent c = agentAt c.messages.length := by
  unfold expectedAgent
  split
  · rename_i hnone
    rw [List.getElem?_eq_none_iff] at hnone
    have h0 : c.messages.length = 0 := by omega
    rw [h0]
    rfl
  · rename_i lm hlast
    exact alternates_next c.messages lm h hlast

/-- The human-append step preserves the orchestration invariant on active
conversations. -/
theorem inv_appendHumanTurn (c : Conversation) (m : String)
    (hact : c.status = .active) (h : Inv c) : Inv (appendHumanTurn c m) := by
  constructor
  · intro hcon
    rw [appendHumanTurn_status, hact] at hcon
    cases hcon
  · rw [appendHumanTurn_messages]
    refine alternates_append _ _ h.2 ?_
    exact expectedAgent_eq c h.2

/-- Case analysis of `advance`: the post-state is the pre-state, the
`end` post-state, or the pre-state with the parity-correct next message
appended. -/
theorem advance_post (ext : Ext) (c : Conversation) :
    (advanceConversation ext c).2 = c ∨
    (advanceConversation ext c).2 = (endConversation ext c).2 ∨
    (∃ lm x, c.messages[c.messages.length - 1]? = some lm ∧ c.status = .active ∧
       x.agent = (if lm.agent = .interrogator then Agent.convincer else .interrogator) ∧
       (advanceConversation ext c).2.status = c.status ∧
       (advanceConversation ext c).2.messages = c.messages ++ [x]) := by
  simp only [advanceConversation]
  split
  · exact .inl rfl
  · rename_i hact'
    have hact : c.status = .active := not_not.mp hact'
    split
    · exact .inr (.inl rfl)
    · split
      · exact .inl rfl
      · rename_i lm hlast
        by_cases hag : lm.agent = .interrogator
        · rw [hag, if_pos rfl]
          split
          · exact .inl rfl
          · rw [if_pos rfl]
            split
            · exact .inl rfl
            · rename_i response st heq
              exact .inr (.inr ⟨lm,
                { role := .assistant, agent := .convincer, content := response,
                  internalThought := none, suspicionScore := none },
                hlast, hact, by rw [if_pos hag], rfl, rfl⟩)
        · rw [if_neg hag]
          split
          · exact .inl rfl
          · rw [if_neg (by decide)]
            split
            · exact .inl rfl
            · rename_i r heq
              exact .inr (.inr ⟨lm,
                { role := .assistant, agent := .interrogator, content := r.response,
                  internalThought := r.analysis.map (jsGet · "thought"),
                  suspicionScore := r.analysis.map (jsGet · "suspicion") },
                hlast, hact, by rw [if_neg hag], rfl, rfl⟩)

/-- Case analysis of `submitHumanMessage`: the post-state is the pre-state
or the `end`/`advance` post-state of the human-appended state. -/
theorem submit_post (ext : Ext) (c : Conversation) (m : String) :
    (submitHumanMessage ext c m).2 = c ∨
    (c.status = .active ∧
       (submitHumanMessage ext c m).2 = (endConversation ext (appendHumanTurn c m)).2) ∨
    (c.status = .active ∧
       (submitHumanMessage ext c m).2 = (advanceConversation ext (appendHumanTurn c m)).2) := by
  simp only [submitHumanMessage]
  split
  · exact .inl rfl
  · rename_i hact'
    have hact : c.status = .active := not_not.mp hact'
    split
    · exact .inl rfl
    · split
      · exact .inl rfl
      · split
        · exact .inr (.inl ⟨hact, rfl⟩)
        · exact .inr (.inr ⟨hact, rfl⟩)

/-- `end` preserves the invariant. -/
theorem inv_end (ext : Ext) (c : Conversation) (h : Inv c) :
    Inv (endConversation ext c).2 := by
  rcases endConversation_cases ext c with ⟨e, _, hE⟩ | ⟨v, _, hE⟩ <;> rw [hE]
  · constructor
    · intro hidle
      rw [injectFinal_status] at hidle
      rw [injectFinal_messages]
      exact h.1 hidle
    · show Alternates (injectFinal c).messages
      rw [injectFinal_messages]
      exact h.2
  · constructor
    · intro hidle
      cases hidle
    · show Alternates (injectFinal c).messages
      rw [injectFinal_messages]
      exact h.2

/-- `start` from an idle conversation preserves the invariant. -/
theorem inv_start (ext : Ext) (c : Conversation) (hidle : c.status = .idle)
    (h : Inv c) : Inv (startConversation ext c).2 := by
  have hms : c.messages = [] := h.1 hidle
  simp only [startConversation]
  split
  · exact ⟨fun hcon => by simp at hcon, h.2⟩
  · split
    · exact ⟨fun hcon => by simp at hcon, h.2⟩
    · refine ⟨fun hcon => by simp at hcon, ?_⟩
      show Alternates (c.messages ++ [_])
      rw [hms, List.nil_append]
      exact alternates_single _ rfl

/-- `advance` preserves the invariant. -/
theorem inv_advance (ext : Ext) (c : Conversation) (h : Inv c) :
    Inv (advanceConversation ext c).2 := by
  rcases advance_post ext c with hE | hE | ⟨lm, x, hlast, hact, hag, hstat, hmsg⟩
  · rw [hE]; exact h
  · rw [hE]; exact inv_end ext c h
  · constructor
    · intro hcon
      rw [hstat, hact] at hcon
      cases hcon
    · rw [hmsg]
      refine alternates_append _ _ h.2 ?_
      rw [hag]
      exact alternates_next c.messages lm h.2 hlast

/-- `submitHumanMessage` preserves the invariant. -/
theorem inv_submit (ext : Ext) (c : Conversation) (m : String) (h : Inv c) :
    Inv (submitHumanMessage ext c m).2 := by
  rcases submit_post ext c m with hE | ⟨hact, hE⟩ | ⟨hact, hE⟩ <;> rw [hE]
  · exact h
  · exact inv_end ext _ (inv_appendHumanTurn c m hact h)
  · exact inv_advance ext _ (inv_appendHumanTurn c m hact h)

/-- Every safely-reachable conversation satisfies the invariant. -/
theorem reachSafe_inv (c : Conversation) (h : ReachSafe c) : Inv c := by
  induction h with
  | create config lp => exact ⟨fun _ => rfl, alternates_nil⟩
  | start ext hidle _ ih => exact inv_start ext _ hidle ih
  | advance ext _ ih => exact inv_advance ext _ ih
  | submit ext content _ ih => exact inv_submit ext _ content ih
  | finish ext _ ih => exact inv_end ext _ ih

/-! Claim theorems. -/

/-- C2: for every active conversation whose `currentTurn` is at or above the
configured turn limit, `advance` is literally equivalent to calling `end`:
it generates no new transcript message, and when the call succeeds the
status is completed and the verdict is non-null. -/
theorem C2_advance_at_limit_is_end (ext : Ext) (c : Conversation)
    (hact : c.status = .active)
    (hlim : c.config.turnLimit ≤ currentTurn c) :
    advanceConversation ext c = endConversation ext c ∧
    (advanceConversation ext c).2.messages = c.messages ∧
    ((advanceConversation ext c).1 = none →
       (advanceConversation ext c).2.status = .completed ∧
       (advanceConversation ext c).2.verdict.isSome = true) := by
  have hlim' : c.config.turnLimit ≤ c.messages.length / 2 := hlim
  have hadv : advanceConversation ext c = endConversation ext c := by
    unfold advanceConversation
    simp [hact, hlim']
  refine ⟨hadv, ?_, ?_⟩
  · rw [hadv]; exact endConversation_messages ext c
  · rw [hadv]; exact endConversation_success ext c

/-- C2 witness at a concrete exhausted conversation. -/
theorem C2_advance_at_limit_is_end_witness :
    advanceConversation (extOk "z") cActiveLim0 = endConversation (extOk "z") cActiveLim0 ∧
    (advanceConversation (extOk "z") cActiveLim0).2.messages = cActiveLim0.messages ∧
    ((advanceConversation (extOk "z") cActiveLim0).1 = none →
       (advanceConversation (extOk "z") cActiveLim0).2.status = .completed ∧
       (advanceConversation (extOk "z") cActiveLim0).2.verdict.isSome = true) :=
  C2_advance_at_limit_is_end (extOk "z") cActiveLim0 rfl (by decide)

/-- C5 counterexample: `start` invoked on a COMPLETED conversation does not
fail — it silently reactivates the conversation (the source has no status
guard in `startConversation`). -/
theorem C5_counterexample :
    startConversation (extOk "w") cDoneHI = (none, { cDoneHI with status := .active }) ∧
    cDoneHI.status = .completed :=
  ⟨rfl, rfl⟩

/-- C5 (amended): `start` performs no status check — on a conversation in
any status it sets the status (back) to active, and succeeds outright when
the human plays the interrogator; `advance` and `submitHumanMessage`, by
contrast, do fail on a completed conversation without changing state. -/
theorem C5_start_unguarded (ext : Ext) (c : Conversation) (m : String) :
    (c.status = .completed →
       advanceConversation ext c = (some .notActive, c) ∧
       submitHumanMessage ext c m = (some .notActive, c)) ∧
    (startConversation ext c).2.status = .active ∧
    (c.config.humanRole = some .interrogator →
       startConversation ext c = (none, { c with status := .active })) := by
  refine ⟨fun h => ⟨?_, ?_⟩, ?_, fun h => ?_⟩
  · unfold advanceConversation; simp [h]
  · unfold submitHumanMessage; simp [h]
  · simp only [startConversation]
    split
    · rfl
    · split <;> rfl
  · unfold startConversation; simp [h]

/-- C5 witness at a concrete completed conversation with a human
interrogator. -/
theorem C5_start_unguarded_witness :
    (advanceConversation (extOk "w") cDoneHI = (some .notActive, cDoneHI) ∧
     submitHumanMessage (extOk "w") cDoneHI "m" = (some .notActive, cDoneHI)) ∧
    (startConversation (extOk "w") cDoneHI).2.status = .active ∧
    startConversation (extOk "w") cDoneHI = (none, { cDoneHI with status := .active }) :=
  ⟨(C5_start_unguarded (extOk "w") cDoneHI "m").1 rfl,
   (C5_start_unguarded (extOk "w") cDoneHI "m").2.1,
   (C5_start_unguarded (extOk "w") cDoneHI "m").2.2 rfl⟩

/-- C7: the code crashes instead of no-opping.  `advance` on a reachable
active conversation with an empty transcript (human interrogator who has
not yet spoken) dereferences `undefined.agent` — a JS TypeError — rather
than treating the interrogator as the next agent and returning the
conversation unchanged. -/
theorem C7_advance_empty_transcript_crashes :
    ReachSafe cEmptyActive ∧ cEmptyActive.status = .active ∧
    cEmptyActive.messages = [] ∧
    advanceConversation (extOk "w") cEmptyActive = (some .typeError, cEmptyActive) :=
  ⟨ReachSafe.start (extOk "w") rfl (ReachSafe.create cfgHumanInt []), rfl, rfl, rfl⟩

/-- C3 counterexample: `start` mutates the status to active BEFORE the model
call, so a failed `start` on an idle conversation surfaces the error but
does not leave the status as it was. -/
theorem C3_counterexample :
    (startConversation (extFail "boom") cIdleAuto).1 = some (.gateway "boom") ∧
    cIdleAuto.status = .idle ∧
    (startConversation (extFail "boom") cIdleAuto).2.status = .active :=
  ⟨rfl, rfl, rfl⟩

/-- C3 (amended): on a gateway failure the error is surfaced in every case,
and the state left behind is: exactly the pre-call state for `advance` in
its respond path; the pre-call state with status forced to active for
`start`; and the human-appended state for `submitHumanMessage` (the human
turn and the agent-state update precede the failing AI call and are not
rolled back). -/
theorem C3_failure_mutations (e : String) (c : Conversation) (m : String) :
    (c.config.humanRole ≠ some .interrogator →
       startConversation (extFail e) c = (some (.gateway e), { c with status := .active })) ∧
    (∀ lm, c.status = .active → currentTurn c < c.config.turnLimit →
       c.messages[c.messages.length - 1]? = some lm →
       c.config.humanRole ≠
         some (if lm.agent = .interrogator then Agent.convincer else .interrogator) →
       advanceConversation (extFail e) c = (some (.gateway e), c)) ∧
    (c.status = .active → c.config.humanRole = some (expectedAgent c) →
       currentTurn (appendHumanTurn c m) < c.config.turnLimit →
       submitHumanMessage (extFail e) c m = (some (.gateway e), appendHumanTurn c m)) := by
  refine ⟨?_, ?_, ?_⟩
  · intro h
    unfold startConversation
    simp [h, interrogatorRespond, extFail]
  · intro lm hs hlt hlast hhr
    exact advance_fail_below_limit e c lm hs hlt hlast hhr
  · intro hs hhr hlim
    have hcfg := appendHumanTurn_config c m
    have hst := appendHumanTurn_status c m
    have h1 : ¬ (c.status ≠ .active) := by simp [hs]
    have h2 : ¬ (c.config.humanRole = none) := by simp [hhr]
    have h3 : ¬ (c.config.humanRole ≠ some (expectedAgent c)) := by simp [hhr]
    have h4 : ¬ ((appendHumanTurn c m).config.turnLimit ≤
        (appendHumanTurn c m).messages.length / 2) := by
      rw [hcfg]; exact hlim.not_le
    have hlast2 : (appendHumanTurn c m).messages[(appendHumanTurn c m).messages.length - 1]? =
        some { role := .assistant, agent := expectedAgent c, content := m,
               internalThought := none, suspicionScore := none } := by
      rw [appendHumanTurn_messages]
      simp
    have hhr2 : (appendHumanTurn c m).config.humanRole ≠
        some (if ({ role := .assistant, agent := expectedAgent c, content := m,
                    internalThought := none, suspicionScore := none } : Message).agent
                = .interrogator then Agent.convincer else .interrogator) := by
      rw [hcfg, hhr]
      cases hE : expectedAgent c <;> simp
    unfold submitHumanMessage
    rw [if_neg h1, if_neg h2, if_neg h3]
    simp only []
    rw [if_neg h4]
    exact advance_fail_below_limit e (appendHumanTurn c m) _ (hst.trans hs)
      (by rw [hcfg] at h4 ⊢; exact hlim) hlast2 hhr2

/-- C3 witness at concrete conversations for each of the three operations. -/
theorem C3_failure_mutations_witness :
    startConversation (extFail "boom") cIdleAuto =
      (some (.gateway "boom"), { cIdleAuto with status := .active }) ∧
    advanceConversation (extFail "boom") cActiveI1 = (some (.gateway "boom"), cActiveI1) ∧
    submitHumanMessage (extFail "boom") cActiveHI "m" =
      (some (.gateway "boom"), appendHumanTurn cActiveHI "m") :=
  ⟨(C3_failure_mutations "boom" cIdleAuto "m").1 (by decide),
   (C3_failure_mutations "boom" cActiveI1 "m").2.1 (msgI "q") rfl (by decide) rfl (by decide),
   (C3_failure_mutations "boom" cActiveHI "m").2.2 rfl rfl (by decide)⟩

/-- C6 counterexample: on a completed conversation with a mismatched human
role, `submitHumanMessage` fails with the InvalidState error
('Conversation is not active'), not with the TurnOrderError the claim
promises for every mismatch. -/
theorem C6_counterexample :
    submitHumanMessage (extOk "w") cDoneHC "hi" = (some .notActive, cDoneHC) ∧
    cDoneHC.config.humanRole = some .convincer ∧
    expectedAgent cDoneHC = .interrogator ∧
    Err.notActive ≠ Err.notYourTurn :=
  ⟨rfl, rfl, rfl, by decide⟩

/-- C6 (amended): `submitHumanMessage` fails with an InvalidState error
whenever `humanRole` is unset (whatever the status), and fails with the
TurnOrderError whenever the conversation is ACTIVE and the configured human
role does not match the speaker expected from transcript parity (when not
active, the earlier InvalidState guard fires instead); on each such failure
the conversation is left exactly unchanged. -/
theorem C6_submit_guards (ext : Ext) (c : Conversation) (m : String) :
    (c.config.humanRole = none →
       ∃ er, submitHumanMessage ext c m = (some er, c) ∧ er.isInvalidState = true) ∧
    (c.status = .active → ∀ r, c.config.humanRole = some r →
       r ≠ expectedAgent c →
       submitHumanMessage ext c m = (some .notYourTurn, c)) := by
  constructor
  · intro h
    by_cases hs : c.status = .active
    · exact ⟨.noHumanRole, by unfold submitHumanMessage; simp [hs, h], rfl⟩
    · exact ⟨.notActive, by unfold submitHumanMessage; simp [hs], rfl⟩
  · intro hs r hr hne
    unfold submitHumanMessage
    simp [hs, hr, hne]

/-- C6 witness at a concrete human-less active conversation and a concrete
out-of-turn human convincer. -/
theorem C6_submit_guards_witness :
    (∃ er, submitHumanMessage (extOk "w") cActiveAuto "m" = (some er, cActiveAuto) ∧
       er.isInvalidState = true) ∧
    submitHumanMessage (extOk "w") cActiveHC "m" = (some .notYourTurn, cActiveHC) :=
  ⟨(C6_submit_guards (extOk "w") cActiveAuto "m").1 rfl,
   (C6_submit_guards (extOk "w") cActiveHC "m").2 rfl .convincer rfl (by decide)⟩

/-- C8 counterexample: calling `end` on an already-completed conversation
neither fails nor is a no-op — it succeeds and overwrites the stored
verdict (confidence 10 before, 83 after re-adjudication). -/
theorem C8_counterexample :
    (endConversation ext8 cDoneV).1 = none ∧
    (endConversation ext8 cDoneV).2.verdict.map Verdict.confidence = some (.finite 83) ∧
    cDoneV.verdict.map Verdict.confidence = some (.finite 10) ∧
    cDoneV.status = .completed := by
  refine ⟨rfl, ?_, rfl, rfl⟩
  decide

/-- C8 (amended): `end` on a completed conversation performs no status
check: it re-injects the trailing convincer message, re-runs adjudication,
and overwrites the verdict with the fresh result; only a gateway failure
makes it error, leaving the status completed. -/
theorem C8_end_readjudicates (ext : Ext) (c : Conversation)
    (hdone : c.status = .completed) :
    (∀ e, interrogatorVerdict ext (injectFinal c).interrogatorState = .error e →
       endConversation ext c = (some (.gateway e), injectFinal c) ∧
       (injectFinal c).status = .completed) ∧
    (∀ v, interrogatorVerdict ext (injectFinal c).interrogatorState = .ok v →
       endConversation ext c =
         (none, { injectFinal c with verdict := some v, status := .completed })) := by
  constructor
  · intro e he
    exact ⟨by simp only [endConversation, he], (injectFinal_status c).trans hdone⟩
  · intro v hv
    simp only [endConversation, hv]

/-- C8 witness: the completed `cDoneV` re-adjudicated by a succeeding and by
a failing gateway. -/
theorem C8_end_readjudicates_witness :
    endConversation ext8 cDoneV =
      (none, { injectFinal cDoneV with
               verdict := some { verdict := .human, confidence := .finite 83,
                                 reasoning := .str "r" },
               status := .completed }) ∧
    endConversation (extFail "x") cDoneV = (some (.gateway "x"), injectFinal cDoneV) ∧
    (injectFinal cDoneV).status = .completed :=
  ⟨(C8_end_readjudicates ext8 cDoneV rfl).2 _ rfl,
   ((C8_end_readjudicates (extFail "x") cDoneV rfl).1 "x" rfl).1,
   ((C8_end_readjudicates (extFail "x") cDoneV rfl).1 "x" rfl).2⟩

/-- C9 counterexample: after a failed `end` (verdict call error) the
injected final convincer message stays in the interrogator's memory, and
the retried `end` injects it AGAIN — the private memory ends up with two
copies of the final convincer message. -/
theorem C9_counterexample :
    (endConversation (extFail "x") cNine).1 = some (.gateway "x") ∧
    cNineB.status = .completed ∧
    cNineB.interrogatorState.messages.count ⟨.user, "ans"⟩ = 2 :=
  ⟨rfl, rfl, by decide⟩

/-- C9 (amended): `end` injects the trailing convincer message into the
interrogator's private memory unconditionally on EVERY invocation — there
is no already-folded-in check, so each call (including a retry after a
failed verdict call) appends one more copy. -/
theorem C9_end_always_injects (ext : Ext) (c : Conversation) (lm : Message)
    (hlast : c.messages[c.messages.length - 1]? = some lm)
    (hagent : lm.agent = .convincer) :
    (endConversation ext c).2.interrogatorState.messages =
      c.interrogatorState.messages ++ [⟨.user, lm.content⟩] := by
  have hinj : (injectFinal c).interrogatorState.messages =
      c.interrogatorState.messages ++ [⟨.user, lm.content⟩] := by
    simp [injectFinal, hlast, hagent]
  rcases endConversation_cases ext c with ⟨e, _, hE⟩ | ⟨v, _, hE⟩ <;>
    rw [hE] <;> exact hinj

/-- C9 witness at the concrete `cNine`. -/
theorem C9_end_always_injects_witness :
    (endConversation (extOk "y") cNine).2.interrogatorState.messages =
      cNine.interrogatorState.messages ++ [⟨.user, "ans"⟩] :=
  C9_end_always_injects (extOk "y") cNine (msgC "ans") rfl rfl

/-- C4 counterexample: a parsed verdict whose confidence field is the
NUMBER 0.  `Number(0) || 50` is falsy in JS, so the code returns
confidence 50, not the clamped provided numeric value 0 the claim
promises. -/
theorem C4_counterexample :
    jsGet parsedZero "confidence" = .num (.finite 0) ∧
    interrogatorVerdict extZero stBase =
      .ok { verdict := .human, confidence := .finite 50, reasoning := .str "x" } ∧
    jsMin (.finite 100) (jsMax (.finite 0) (.finite 0)) = .finite 0 ∧
    JsNum.finite (50 : ℚ) ≠ .finite 0 :=
  ⟨rfl, rfl, by decide, by decide⟩

/-- C4 (amended): verdict adjudication returns "human" exactly when the
parsed verdict field is the string literal "human"; on any JSON parse
failure it returns exactly the fixed fallback verdict without error; and
the returned confidence is the provided numeric confidence clamped into
[0,100] only when that number is nonzero — it defaults to 50 when the
confidence is missing, non-numeric, or a JS-falsy number (0 or NaN),
because the source computes `Number(confidence) || 50`. -/
theorem C4_verdict_parsing (ext : Ext) (st : InterrogatorState) (resp : String)
    (hgen : ext.gen (st.messages ++ [⟨.user, verdictPromptText⟩]) (3/10 : ℚ) st.model = .ok resp) :
    (ext.jparse resp = none →
       interrogatorVerdict ext st =
         .ok { verdict := .ai, confidence := .finite 50,
               reasoning := .str "Unable to parse verdict response" }) ∧
    (∀ parsed, ext.jparse resp = some parsed →
       ∃ v, interrogatorVerdict ext st = .ok v ∧
         (v.verdict = .human ↔ jsGet parsed "verdict" = .str "human") ∧
         (∀ q : ℚ, jsGet parsed "confidence" = .num (.finite q) → q ≠ 0 →
            v.confidence = .finite (min 100 (max 0 q))) ∧
         ((jsGet parsed "confidence" = .undefined ∨
           jsGet parsed "confidence" = .num (.finite 0) ∨
           jsGet parsed "confidence" = .num .nan) →
            v.confidence = .finite 50)) := by
  constructor
  · intro hp
    simp only [interrogatorVerdict, hgen, hp]
  · intro parsed hp
    have hstep : interrogatorVerdict ext st = .ok
        { verdict := match jsGet parsed "verdict" with
            | .str s => if s = "human" then VerdictKind.human else .ai
            | _ => .ai
          confidence := jsMin (.finite 100)
            (jsMax (.finite 0) (jsOrFifty (jsToNumber (jsGet parsed "confidence"))))
          reasoning := if jsTruthy (jsGet parsed "reasoning") then jsGet parsed "reasoning"
            else .str "Unable to determine reasoning" } := by
      simp only [interrogatorVerdict, hgen, hp]
    refine ⟨_, hstep, ?_, ?_, ?_⟩
    · cases hv : jsGet parsed "verdict" with
      | str s =>
        by_cases hs : s = "human"
        · simp [hs]
        · simp [hs]
      | undefined => simp
      | null => simp
      | bool b => simp
      | num n => simp
      | obj fields => simp
      | arr elems => simp
    · intro q hq hq0
      simp only [hq, jsToNumber, jsOrFifty, jsNumTruthy]
      rw [if_pos (by simpa using hq0)]
      simp [jsMax, jsMin]
    · intro hcase
      rcases hcase with hq | hq | hq <;>
        simp [hq, jsToNumber, jsOrFifty, jsNumTruthy, jsMax, jsMin] <;> norm_num

/-- C4 witness: the fallback at a non-JSON response and the coercions at the
concrete parsed object `parsedHuman`. -/
theorem C4_verdict_parsing_witness :
    interrogatorVerdict (extOk "notjson") stBase =
      .ok { verdict := .ai, confidence := .finite 50,
            reasoning := .str "Unable to parse verdict response" } ∧
    (∃ v, interrogatorVerdict ext8 stBase = .ok v ∧
       (v.verdict = .human ↔ jsGet parsedHuman "verdict" = .str "human") ∧
       (∀ q : ℚ, jsGet parsedHuman "confidence" = .num (.finite q) → q ≠ 0 →
          v.confidence = .finite (min 100 (max 0 q))) ∧
       ((jsGet parsedHuman "confidence" = .undefined ∨
         jsGet parsedHuman "confidence" = .num (.finite 0) ∨
         jsGet parsedHuman "confidence" = .num .nan) →
          v.confidence = .finite 50)) :=
  ⟨(C4_verdict_parsing (extOk "notjson") stBase "notjson" rfl).1 rfl,
   (C4_verdict_parsing ext8 stBase "resp" rfl).2 parsedHuman rfl⟩

/-- C10: a successful `interrogatorRespond` with a (nonempty) incoming
message extends the persisted private memory with exactly two entries — the
incoming message as a user turn WITHOUT the analysis-instruction suffix
(which goes only into the transient prompt copy), and the visible response
(the raw output with the matched `[ANALYSIS]` block stripped) as an
assistant turn; the turn counter increases by exactly one, and whenever the
analysis regex matched, the stored assistant turn contains no occurrence of
the `[ANALYSIS]` tag. -/
theorem C10_respond_memory (ext : Ext) (st : InterrogatorState) (m raw : String)
    (hm : m ≠ "")
    (hgen : ext.gen (st.messages ++ [⟨.user, m ++ analysisInstruction⟩]) (9/10 : ℚ)
      st.model = .ok raw) :
    ∃ r, interrogatorRespond ext st (some m) = .ok r ∧
      r.response = visibleResponse raw ∧
      r.state.messages = st.messages ++ [⟨.user, m⟩, ⟨.assistant, r.response⟩] ∧
      r.state.turnCount = st.turnCount + 1 ∧
      ((analysisCapture raw).isSome = true →
        hasSubstring analysisTag r.response.toList = false) := by
  have hstep : interrogatorRespond ext st (some m) = .ok
      { response := visibleResponse raw
        state := { messages := (st.messages ++ [⟨.user, m⟩]) ++
                     [⟨.assistant, visibleResponse raw⟩]
                   turnCount := st.turnCount + 1
                   model := st.model
                   style := none }
        analysis := (analysisCapture raw).bind ext.jparse } := by
    unfold interrogatorRespond
    rw [if_pos (by simpa using hm)]
    simp only [Option.getD_some, hgen]
  refine ⟨_, hstep, rfl, by simp, rfl, fun h => visibleResponse_no_tag raw h⟩

/-- C10 witness at a concrete raw output with a well-formed analysis
block. -/
theorem C10_respond_memory_witness :
    (∃ r, interrogatorRespond (extOk rawWithAnalysis) stBase (some "hi") = .ok r ∧
       r.response = visibleResponse rawWithAnalysis ∧
       r.state.messages = stBase.messages ++ [⟨.user, "hi"⟩, ⟨.assistant, r.response⟩] ∧
       r.state.turnCount = stBase.turnCount + 1 ∧
       ((analysisCapture rawWithAnalysis).isSome = true →
         hasSubstring analysisTag r.response.toList = false)) ∧
    visibleResponse rawWithAnalysis = "Sounds fake." :=
  ⟨C10_respond_memory (extOk rawWithAnalysis) stBase "hi" rawWithAnalysis
     (by decide) rfl,
   by decide⟩

/-- C1 counterexample: under the claim's reachability (ANY sequence of the
five operations), a second `start` — which the code accepts because
`startConversation` has no status guard — appends a second consecutive
interrogator message: index 1 is odd yet tagged interrogator. -/
theorem C1_counterexample :
    ReachAny cDouble ∧
    cDouble.messages.length = 2 ∧
    (cDouble.messages.get ⟨1, by decide⟩).agent = .interrogator ∧
    1 % 2 ≠ 0 :=
  ⟨ReachAny.start (extOk "hi") (ReachAny.start (extOk "hi") (ReachAny.create cfgAuto [])),
   rfl, rfl, by decide⟩

/-- C1 (amended): for every conversation reachable by sequences in which
`start` is only invoked on an idle conversation (the discipline the spec's
state machine prescribes — the code itself accepts `start` in any status,
see the counterexample), the shared transcript strictly alternates agents
starting with the interrogator: the message at index i is tagged
interrogator exactly when i is even, and the `currentTurn` the orchestrator
computes equals floor(len(transcript)/2). -/
theorem C1_alternation (c : Conversation) (h : ReachSafe c) :
    (∀ i, (hi : i < c.messages.length) →
       ((c.messages[i]).agent = .interrogator ↔ i % 2 = 0)) ∧
    currentTurn c = c.messages.length / 2 := by
  refine ⟨?_, rfl⟩
  intro i hi
  have hx := (reachSafe_inv c h).2 i hi
  rw [hx]
  unfold agentAt
  rcases Nat.mod_two_eq_zero_or_one i with h2 | h2 <;> simp [h2]

/-- C1 witness at the concrete conversation reached by create → start. -/
theorem C1_alternation_witness :
    ((cReachW.messages.get ⟨0, by decide⟩).agent = .interrogator ↔ 0 % 2 = 0) ∧
    currentTurn cReachW = cReachW.messages.length / 2 :=
  ⟨(C1_alternation cReachW
      (ReachSafe.start (extOk "hi") rfl (ReachSafe.create cfgAuto []))).1 0 (by decide),
   (C1_alternation cReachW
      (ReachSafe.start (extOk "hi") rfl (ReachSafe.create cfgAuto []))).2⟩

end RT
